import Mathlib

/-!
Verification of the CDK2Git core: content-addressed git objects, packfile
encoding, pkt-line parsing, side-band multiplexing, the refs advertisement
and the upload-pack flow, shallowly embedded from `src/git_handler.py` and
`src/cdktf_handler.py`.

Bytes are modelled as `List Nat` (each element < 256 by construction).
`zlib.compress` is opaque to every property below, so it is passed as an
explicit function parameter `compress`.  `hashlib.sha1` is implemented in
full.
-/

set_option maxRecDepth 4000
set_option maxHeartbeats 1000000

/-! ### Byte-level helpers -/

/-- UTF-8 encoding of one character (mirrors Python `str.encode("utf-8")`). -/
def utf8Char (c : Char) : List Nat :=
  let n := c.toNat
  if n < 0x80 then [n]
  else if n < 0x800 then [0xC0 ||| (n >>> 6), 0x80 ||| (n &&& 0x3F)]
  else if n < 0x10000 then
    [0xE0 ||| (n >>> 12), 0x80 ||| ((n >>> 6) &&& 0x3F), 0x80 ||| (n &&& 0x3F)]
  else
    [0xF0 ||| (n >>> 18), 0x80 ||| ((n >>> 12) &&& 0x3F),
     0x80 ||| ((n >>> 6) &&& 0x3F), 0x80 ||| (n &&& 0x3F)]

/-- UTF-8 encoding of a string as a byte list. -/
def utf8 (s : String) : List Nat := s.data.flatMap utf8Char

/-- Lowercase hex digit character for a value < 16. -/
def hexChar (d : Nat) : Char := Char.ofNat (if d < 10 then 48 + d else 87 + d)

/-- Hex digits of `n`, most significant first (no leading zeros, `0 ↦ "0"`). -/
def hexDigits (n : Nat) : List Char :=
  if _h : n < 16 then [hexChar n]
  else hexDigits (n / 16) ++ [hexChar (n % 16)]
decreasing_by exact Nat.div_lt_self (by omega) (by omega)

/-- Python `f"{n:04x}"`: lowercase hex, zero-padded to at least 4 digits. -/
def pyHex04 (n : Nat) : String :=
  let ds := hexDigits n
  String.mk (List.replicate (4 - ds.length) '0' ++ ds)

/-- Two lowercase hex digit characters of one byte. -/
def byteHex (b : Nat) : List Char := [hexChar (b / 16), hexChar (b % 16)]

/-- Lowercase hex rendering of a byte list (Python `.hexdigest()` shape). -/
def hexStr (l : List Nat) : String := String.mk (l.flatMap byteHex)

/-- Value of a hex digit character, if it is one. -/
def hexVal (c : Char) : Option Nat :=
  if '0' ≤ c ∧ c ≤ '9' then some (c.toNat - 48)
  else if 'a' ≤ c ∧ c ≤ 'f' then some (c.toNat - 87)
  else if 'A' ≤ c ∧ c ≤ 'F' then some (c.toNat - 55)
  else none

/-- Decode consecutive hex-digit pairs into bytes; fails on a stray digit or
a non-hex character. -/
def hexPairs : List Char → Option (List Nat)
  | [] => some []
  | [_] => none
  | a :: b :: rest =>
    match hexVal a, hexVal b, hexPairs rest with
    | some x, some y, some t => some ((x * 16 + y) :: t)
    | _, _, _ => none

/-- Python `bytes.fromhex`: spaces are skipped, everything else must be an
even run of hex digits; raises (here: `none`) otherwise. -/
def bytesFromHex (s : String) : Option (List Nat) :=
  hexPairs (s.data.filter (fun c => c ≠ ' '))

/-- Big-endian 32-bit serialization (as in `struct.pack(">I", n)`). -/
def be32 (n : Nat) : List Nat :=
  [(n >>> 24) % 256, (n >>> 16) % 256, (n >>> 8) % 256, n % 256]

/-- Big-endian 64-bit serialization. -/
def be64 (n : Nat) : List Nat := be32 ((n >>> 32) % 4294967296) ++ be32 n

/-- Split a byte list into consecutive chunks of `cs` bytes (the last chunk
may be shorter), as Python `data[i:i+cs]` over `range(0, len(data), cs)`. -/
def chunksOf (cs : Nat) : List Nat → List (List Nat)
  | [] => []
  | a :: rest => (a :: rest.take (cs - 1)) :: chunksOf cs (rest.drop (cs - 1))
termination_by l => l.length
decreasing_by simp [List.length_drop]; omega

/-! ### SHA-1 (RFC 3174), executable -/

/-- Rotate a 32-bit word left by `k`. -/
def rotl (k n : Nat) : Nat := ((n <<< k) ||| (n >>> (32 - k))) % 4294967296

/-- SHA-1 padding: append `0x80`, zero bytes up to 56 mod 64, then the
64-bit big-endian bit length. -/
def sha1Pad (msg : List Nat) : List Nat :=
  let padLen := (55 + 64 - msg.length % 64) % 64
  msg ++ 0x80 :: (List.replicate padLen 0 ++ be64 (msg.length * 8))

/-- Group bytes into big-endian 32-bit words. -/
def wordsOf : List Nat → List Nat
  | a :: b :: c :: d :: rest => (((a * 256 + b) * 256 + c) * 256 + d) :: wordsOf rest
  | _ => []

/-- Extend the 16 block words to the 80-entry message schedule. -/
def sha1Expand (w : Array Nat) : Array Nat :=
  (List.range 64).foldl
    (fun a _ =>
      let i := a.size
      a.push (rotl 1 ((a.getD (i - 3) 0) ^^^ (a.getD (i - 8) 0) ^^^
                      (a.getD (i - 14) 0) ^^^ (a.getD (i - 16) 0))))
    w

/-- One SHA-1 round. -/
def sha1Round (w : Array Nat) (st : Nat × Nat × Nat × Nat × Nat) (i : Nat) :
    Nat × Nat × Nat × Nat × Nat :=
  let (a, b, c, d, e) := st
  let f :=
    if i < 20 then (b &&& c) ||| ((b ^^^ 0xFFFFFFFF) &&& d)
    else if i < 40 then b ^^^ c ^^^ d
    else if i < 60 then (b &&& c) ||| (b &&& d) ||| (c &&& d)
    else b ^^^ c ^^^ d
  let k :=
    if i < 20 then 0x5A827999
    else if i < 40 then 0x6ED9EBA1
    else if i < 60 then 0x8F1BBCDC
    else 0xCA62C1D6
  let temp := (rotl 5 a + f + e + k + w.getD i 0) % 4294967296
  (temp, a, rotl 30 b, c, d)

/-- Compress one 64-byte block into the running state. -/
def sha1Block (h : Nat × Nat × Nat × Nat × Nat) (block : List Nat) :
    Nat × Nat × Nat × Nat × Nat :=
  let w := sha1Expand (wordsOf block).toArray
  let (a, b, c, d, e) := (List.range 80).foldl (sha1Round w) h
  let (h0, h1, h2, h3, h4) := h
  ((h0 + a) % 4294967296, (h1 + b) % 4294967296, (h2 + c) % 4294967296,
   (h3 + d) % 4294967296, (h4 + e) % 4294967296)

/-- SHA-1 digest of a byte list, as 20 bytes. -/
def sha1 (msg : List Nat) : List Nat :=
  let st := (chunksOf 64 (sha1Pad msg)).foldl sha1Block
    (0x67452301, 0xEFCDAB89, 0x98BADCFE, 0x10325476, 0xC3D2E1F0)
  be32 st.1 ++ be32 st.2.1 ++ be32 st.2.2.1 ++ be32 st.2.2.2.1 ++ be32 st.2.2.2.2

/-- `hashlib.sha1(l).hexdigest()`. -/
def sha1Hex (l : List Nat) : String := hexStr (sha1 l)

/-! ### ObjectBuilder: `GitHandler.create_blob` / `create_tree` / `create_commit` -/

/-- `create_blob`: wrap UTF-8 content with `"blob <len>\0"` and digest. -/
def create_blob (content : String) : String × List Nat :=
  let data := utf8 content
  let blob_store := utf8 ("blob ") ++ utf8 (toString data.length) ++ 0 :: data
  (sha1Hex blob_store, blob_store)

/-- One tree entry: `b"100644 " + path + b"\0" + bytes.fromhex(hash)`;
`none` models the `ValueError` raised on a malformed hash. -/
def treeEntryBytes (path hash_value : String) : Option (List Nat) :=
  (bytesFromHex hash_value).map (fun raw => utf8 ("100644 " ++ path) ++ 0 :: raw)

/-- `create_tree`: stable-sort the `(path, hash, blob)` entries by path
(Python `sorted` with `key=lambda x: x[0]`), concatenate the encoded
entries, wrap with `"tree <len>\0"` and digest. -/
def create_tree (objects : List (String × String × List Nat)) :
    Option (String × List Nat) :=
  let sorted_objects := objects.mergeSort (fun a b => decide (a.1 ≤ b.1))
  (sorted_objects.mapM (fun o => treeEntryBytes o.1 o.2.1)).map fun entries =>
    let tree_data := entries.flatten
    let tree_store := utf8 ("tree ") ++ utf8 (toString tree_data.length) ++ 0 :: tree_data
    (sha1Hex tree_store, tree_store)

/-- `create_commit`: fixed-format commit text over one tree identity. -/
def create_commit (tree_hash : String) : String × List Nat :=
  let commit_data := utf8 ("tree " ++ tree_hash ++ "\n" ++
    "author CDK2Git <cdk2git@example.com> 1701926400 +0000\n" ++
    "committer CDK2Git <cdk2git@example.com> 1701926400 +0000\n" ++
    "\n" ++
    "Initial commit - CDKTF synthesis output")
  let commit_store := utf8 ("commit ") ++ utf8 (toString commit_data.length) ++ 0 :: commit_data
  (sha1Hex commit_store, commit_store)

/-! ### PackfileEncoder: `GitHandler.create_packfile` -/

/-- Object type tag from the store encoding's leading keyword. -/
def objType (content : List Nat) : Nat :=
  if content.take 7 = utf8 ("commit ") then 1
  else if content.take 5 = utf8 ("tree ") then 2
  else 3

/-- Bytes after the first NUL (`content[null_pos+1:]`), or the whole input
when no NUL occurs (`content.find(b"\x00") == -1`). -/
def afterNull (content : List Nat) : List Nat :=
  match content.dropWhile (fun b => b ≠ 0) with
  | [] => content
  | _ :: rest => rest

/-- The `while size > 0` loop of the pack object header: emit `c` with the
continuation bit, then 7 more size bits at a time. -/
def objHeaderAux (c size : Nat) : List Nat :=
  if _h : size = 0 then [c]
  else (0x80 ||| c) :: objHeaderAux (size &&& 0x7f) (size >>> 7)
termination_by size
decreasing_by
  simp [Nat.shiftRight_eq_div_pow]
  omega

/-- Variable-length pack object header for a type tag and payload size. -/
def objHeader (t size : Nat) : List Nat :=
  objHeaderAux ((t <<< 4) ||| (size &&& 0x0f)) (size >>> 4)

/-- One pack entry: header then compressed payload. -/
def packEntryBytes (compress : List Nat → List Nat) (obj : String × List Nat) :
    List Nat :=
  let content := afterNull obj.2
  objHeader (objType obj.2) content.length ++ compress content

/-- `create_packfile`: `b"PACK"`, version 2, object count, entries, then the
SHA-1 of everything emitted so far. `compress` stands for `zlib.compress`,
whose output bytes are opaque to every property proved below. -/
def create_packfile (objects : List (String × List Nat))
    (compress : List Nat → List Nat) : List Nat :=
  let header := utf8 ("PACK") ++ be32 2 ++ be32 objects.length
  let pack := header ++ (objects.map (packEntryBytes compress)).flatten
  pack ++ sha1 pack

/-! ### PktLineCodec: `GitHandler.parse_request`

Python semantics modelled exactly: `bytes` slicing with negative/clamped
indices, `.decode("ascii")`, and `int(s, 16)` (whitespace stripping,
optional sign, optional `0x` prefix, underscores between digits).  The
scan loop carries fuel because the real loop can diverge (see `C7`); `none`
means the loop did not return within the fuel budget. -/

/-- Python `l[a:b]` on bytes: negative indices count from the end, then both
bounds are clamped to `[0, len]`. -/
def pySlice (l : List Nat) (a b : Int) : List Nat :=
  let n : Int := l.length
  let a' := min (max (if a < 0 then n + a else a) 0) n
  let b' := min (max (if b < 0 then n + b else b) 0) n
  (l.drop a'.toNat).take (b' - a').toNat

/-- Python `bytes.decode("ascii")`: fails on any byte ≥ 128. -/
def pyDecodeAscii (l : List Nat) : Option String :=
  if l.all (fun b => b < 128) then some (String.mk (l.map Char.ofNat)) else none

/-- Python `str.strip()` whitespace. -/
def isPyWs (c : Char) : Bool :=
  c == ' ' || c == '\t' || c == '\n' || c == '\r' || c.toNat == 11 || c.toNat == 12

/-- Hex digits with single underscores strictly between digits. -/
def isUnderscoredHex : List Char → Bool
  | [] => false
  | [c] => (hexVal c).isSome
  | c :: '_' :: rest => (hexVal c).isSome && isUnderscoredHex rest
  | c :: rest => (hexVal c).isSome && isUnderscoredHex rest

/-- Value of a valid underscored hex digit run. -/
def hexDigitsVal (cs : List Char) : Nat :=
  cs.foldl (fun acc c => match hexVal c with | some v => acc * 16 + v | none => acc) 0

/-- Python `int(s, 16)`: strip whitespace, optional sign, optional `0x`/`0X`
prefix (an underscore may follow the prefix), digits with underscores. -/
def pyIntHex (s : String) : Option Int :=
  let cs := ((s.data.dropWhile isPyWs).reverse.dropWhile isPyWs).reverse
  let sign : Int := match cs with | '-' :: _ => -1 | _ => 1
  let cs₁ := match cs with | '-' :: rest => rest | '+' :: rest => rest | _ => cs
  let cs₂ := match cs₁ with
    | '0' :: 'x' :: '_' :: rest => rest
    | '0' :: 'x' :: rest => rest
    | '0' :: 'X' :: '_' :: rest => rest
    | '0' :: 'X' :: rest => rest
    | _ => cs₁
  if isUnderscoredHex cs₂ then some (sign * hexDigitsVal cs₂) else none

/-- Decode a byte slice as ASCII then parse it as a hex integer. -/
def pyBytesHexInt (l : List Nat) : Option Int :=
  (pyDecodeAscii l).bind pyIntHex

/-- The `while pos < len(data)` loop of `parse_request`.  A `some` result is
the list the Python loop returns (by falling off the end or by `break` on an
exception); `none` means the fuel ran out before the loop finished. -/
def parseLoop (data : List Nat) : Nat → Int → List String → Option (List String)
  | 0, _, _ => none
  | fuel + 1, pos, wants =>
    if pos < (data.length : Int) then
      match pyBytesHexInt (pySlice data pos (pos + 4)) with
      | none => some wants
      | some length =>
        if length = 0 then parseLoop data fuel (pos + 4) wants
        else
          if (pySlice data (pos + 4) (pos + length)).take 5 = utf8 ("want ") then
            match pyDecodeAscii (((pySlice data (pos + 4) (pos + length)).drop 5).take 40) with
            | none => some wants
            | some s => parseLoop data fuel (pos + length) (wants ++ [s])
          else parseLoop data fuel (pos + length) wants
    else some wants

/-- `parse_request` with a fuel budget large enough for every terminating
scan whose parsed lengths are nonnegative. -/
def parse_request (data : List Nat) : Option (List String) :=
  parseLoop data (2 * data.length + 16) 0 []

/-! ### SideBandMultiplexer and response framing -/

/-- `format_side_band`: 65,519-byte chunks, each framed as
`[4-hex-digit length][band byte][chunk]`, then one flush packet. -/
def format_side_band (data : List Nat) (band : Nat) : List Nat :=
  ((chunksOf 65519 data).map (fun chunk =>
    utf8 (pyHex04 (chunk.length + 5)) ++ band :: chunk)).flatten ++ utf8 ("0000")

/-- `format_pack_response`: pkt-line `"NAK\n"` followed by the side-band
stream of the pack bytes. -/
def format_pack_response (pack_data : List Nat) : List Nat :=
  utf8 (pyHex04 (4 + 4)) ++ utf8 ("NAK\n") ++ format_side_band pack_data 1

/-! ### The two flows: `GitHandler.generate_pack` and `GitHandler.get_refs`

The filesystem walk of the synthesis directory is abstracted to the list of
`(relative path, text content)` pairs it yields, in walk order; `synthesize`
returning `None` is the `none` case. -/

/-- The blob-building loop over walked files: `(rel_path, hash, blob)`. -/
def buildObjects (files : List (String × String)) :
    List (String × String × List Nat) :=
  files.map (fun f => let hb := create_blob f.2; (f.1, hb.1, hb.2))

/-- `generate_pack` as a function of the request bytes and the synthesis
outcome.  The outer `Option` is termination of the embedded `parse_request`
scan (`none` only when that loop diverges); the inner `Option` is the
Python return value (`None` or the response bytes). -/
def generate_pack (request_data : List Nat)
    (synth : Option (List (String × String)))
    (compress : List Nat → List Nat) : Option (Option (List Nat)) :=
  match parse_request request_data with
  | none => none
  | some wants =>
    if wants = [] then some none
    else
      match synth with
      | none => some none
      | some files =>
        let objects := buildObjects files
        if objects = [] then some none
        else
          match create_tree objects with
          | none => some none
          | some (tree_hash, tree_content) =>
            let commit := create_commit tree_hash
            let pack_objects :=
              (objects.map (fun o => (o.2.1, o.2.2))) ++
                [(tree_hash, tree_content), (commit.1, commit.2)]
            let sorted := pack_objects.mergeSort (fun a b => decide (a.1 ≤ b.1))
            some (some (format_pack_response (create_packfile sorted compress)))

/-- Outcome of the `try` body of `get_refs` up to the commit computation:
an exception (file read, `exec`, walk, …), a `None` synthesis result, or a
walked file list. -/
inductive RefsOutcome where
  | raised
  | synthNone
  | files (fs : List (String × String))

/-- The fixed capability list advertised with HEAD. -/
def capabilities : String :=
  "multi_ack thin-pack side-band side-band-64k ofs-delta shallow deepen-since deepen-not deepen-relative no-progress include-tag multi_ack_detailed symref=HEAD:refs/heads/main agent=git/2.43.0"

/-- Pkt-line framing of a text line: `f"{len(s) + 4:04x}{s}"`. -/
def pktLineStr (s : String) : String := pyHex04 (s.length + 4) ++ s

/-- The all-zero identity advertised for an unborn/empty repository. -/
def zeroId : String := "0000000000000000000000000000000000000000"

/-- `get_refs`: compute (or default) the commit identity, then emit the
service announcement, a flush, the HEAD line with capabilities, the main
branch line, and a final flush, UTF-8 encoded. -/
def get_refs (o : RefsOutcome) : List Nat :=
  let commit_hash :=
    match o with
    | .raised => zeroId
    | .synthNone => zeroId
    | .files fs =>
      let objects := buildObjects fs
      if objects = [] then zeroId
      else
        match create_tree objects with
        | none => zeroId
        | some (tree_hash, _) => (create_commit tree_hash).1
  utf8 (pktLineStr ("# service=git-upload-pack\n") ++ "0000" ++
    pktLineStr (commit_hash ++ " HEAD\x00" ++ capabilities ++ "\n") ++
    pktLineStr (commit_hash ++ " refs/heads/main\n") ++ "0000")

/-! ### Scratch-directory lifecycle: `CDKTFHandler.synthesize` and the
`finally` cleanup shared by `get_refs` and `generate_pack`.

The filesystem is modelled as the list of existing directory paths.
`synthesize` allocates `tempDir` via `tempfile.mkdtemp`; on success the
output lands in `tempDir ++ "/cdktf.out"` and that inner path is returned;
the `except` branch removes `tempDir`; the no-`MyStack` and missing-output
branches return `None` without removing anything.  The callers' `finally`
blocks run `shutil.rmtree(synth_dir)` only when a directory path was
returned and still exists. -/

/-- Which branch of `synthesize` runs. -/
inductive SynthBehavior where
  | execRaises
  | noMyStack
  | outMissing
  | ok

/-- The path handed out by `tempfile.mkdtemp`. -/
def tempDir : String := "/tmp/scratch"

/-- `shutil.rmtree p`: remove `p` and every path below it. -/
def rmtree (p : String) (fs : List String) : List String :=
  fs.filter (fun q => !(q == p || (p ++ "/").isPrefixOf q))

/-- `CDKTFHandler.synthesize` as a filesystem transformer returning the
synthesis directory (or `None`) and the filesystem after it runs. -/
def synthesize (beh : SynthBehavior) (fs : List String) :
    Option String × List String :=
  let fs₁ := fs ++ [tempDir]
  match beh with
  | .execRaises => (none, rmtree tempDir fs₁)
  | .noMyStack => (none, fs₁)
  | .outMissing => (none, fs₁)
  | .ok => (some (tempDir ++ "/cdktf.out"), fs₁ ++ [tempDir ++ "/cdktf.out"])

/-- The `try … finally` skeleton of both `get_refs` and `generate_pack`:
call `synthesize`, then in `finally` delete the returned directory if it
exists.  Returns the filesystem at the moment the flow returns. -/
def flowCleanup (beh : SynthBehavior) (fs : List String) : List String :=
  let r := synthesize beh fs
  match r.1 with
  | none => r.2
  | some sd => if sd ∈ r.2 then rmtree sd r.2 else r.2

/-! ### Helper lemmas -/

theorem chunksOf_flatten (cs : Nat) : ∀ l : List Nat, (chunksOf cs l).flatten = l
  | [] => by simp [chunksOf]
  | a :: rest => by
    rw [chunksOf]
    simp only [List.flatten_cons, List.cons_append]
    rw [chunksOf_flatten cs (rest.drop (cs - 1))]
    simp [List.take_append_drop]
termination_by l => l.length
decreasing_by simp [List.length_drop]; omega

theorem chunksOf_length_le (cs : Nat) (hcs : 1 ≤ cs) :
    ∀ l : List Nat, ∀ c ∈ chunksOf cs l, c.length ≤ cs
  | [] => by simp [chunksOf]
  | a :: rest => by
    rw [chunksOf]
    intro c hc
    rcases List.mem_cons.mp hc with h | h
    · subst h
      simp only [List.length_cons]
      have := List.length_take_le (cs - 1) rest
      omega
    · exact chunksOf_length_le cs hcs (rest.drop (cs - 1)) c h
termination_by l => l.length
decreasing_by simp [List.length_drop]; omega

theorem chunksOf_ne_nil (cs : Nat) :
    ∀ l : List Nat, ∀ c ∈ chunksOf cs l, c ≠ []
  | [] => by simp [chunksOf]
  | a :: rest => by
    rw [chunksOf]
    intro c hc
    rcases List.mem_cons.mp hc with h | h
    · subst h; simp
    · exact chunksOf_ne_nil cs (rest.drop (cs - 1)) c h
termination_by l => l.length
decreasing_by simp [List.length_drop]; omega

theorem chunksOf_eq_single (cs : Nat) (l : List Nat) (h : l ≠ [])
    (hlen : l.length ≤ cs) : chunksOf cs l = [l] := by
  match l, h with
  | a :: rest, _ =>
    rw [chunksOf]
    have h1 : rest.length ≤ cs - 1 := by
      simp only [List.length_cons] at hlen; omega
    rw [List.take_of_length_le h1, List.drop_eq_nil_of_le h1, chunksOf]

theorem utf8Char_ascii {c : Char} (h : c.toNat < 128) : utf8Char c = [c.toNat] := by
  simp [utf8Char, h]

theorem flatMap_utf8Char_length :
    ∀ {l : List Char}, (∀ c ∈ l, c.toNat < 128) →
      (l.flatMap utf8Char).length = l.length
  | [], _ => rfl
  | c :: rest, h => by
    simp only [List.flatMap_cons, List.length_append]
    rw [utf8Char_ascii (h c (List.mem_cons_self c rest)),
      flatMap_utf8Char_length (fun x hx => h x (List.mem_cons_of_mem c hx))]
    simp [Nat.add_comm]

theorem hexChar_ascii : ∀ d < 16, (hexChar d).toNat < 128 := by decide

theorem hexDigits_ascii : ∀ n : Nat, ∀ c ∈ hexDigits n, c.toNat < 128
  | n => by
    rw [hexDigits]
    split
    · intro c hc
      rcases List.mem_singleton.mp hc with rfl
      exact hexChar_ascii n (by omega)
    · intro c hc
      rcases List.mem_append.mp hc with h | h
      · exact hexDigits_ascii (n / 16) c h
      · rcases List.mem_singleton.mp h with rfl
        exact hexChar_ascii (n % 16) (Nat.mod_lt n (by omega))
termination_by n => n
decreasing_by exact Nat.div_lt_self (by omega) (by omega)

theorem hexDigits_length_le : ∀ k, 1 ≤ k → ∀ n < 16 ^ k, (hexDigits n).length ≤ k
  | k, hk, n, hn => by
    rw [hexDigits]
    split
    · simpa using hk
    · rename_i h16
      match k, hk with
      | 1, _ => omega
      | k + 2, _ =>
        have hdiv : n / 16 < 16 ^ (k + 1) := by
          have : n < 16 ^ (k + 1) * 16 := by
            have : 16 ^ (k + 2) = 16 ^ (k + 1) * 16 := by ring
            omega
          omega
        have := hexDigits_length_le (k + 1) (by omega) (n / 16) hdiv
        simp only [List.length_append, List.length_cons, List.length_nil]
        omega

theorem utf8_pyHex04_length {n : Nat} (h : n < 65536) :
    (utf8 (pyHex04 n)).length = 4 := by
  unfold utf8 pyHex04
  rw [flatMap_utf8Char_length]
  · simp only [List.length_append, List.length_replicate]
    have h1 : 1 ≤ (hexDigits n).length := by
      rw [hexDigits]
      split
      · simp
      · simp
    have h4 : (hexDigits n).length ≤ 4 :=
      hexDigits_length_le 4 (by omega) n (by norm_num; omega)
    omega
  · intro c hc
    rcases List.mem_append.mp hc with hmem | hmem
    · rcases List.eq_of_mem_replicate hmem with rfl; decide
    · exact hexDigits_ascii n c hmem

theorem be32_mem_lt (n : Nat) : ∀ b ∈ be32 n, b < 256 := by
  intro b hb
  simp only [be32, List.mem_cons, List.not_mem_nil, or_false] at hb
  rcases hb with rfl | rfl | rfl | rfl <;> exact Nat.mod_lt _ (by omega)

theorem sha1_length (l : List Nat) : (sha1 l).length = 20 := by
  simp [sha1, be32]

theorem sha1_mem_lt (l : List Nat) : ∀ b ∈ sha1 l, b < 256 := by
  intro b hb
  simp only [sha1, List.mem_append] at hb
  rcases hb with (((h | h) | h) | h) | h <;> exact be32_mem_lt _ b h

theorem hexVal_hexChar : ∀ d < 16, hexVal (hexChar d) = some d := by decide

theorem hexChar_ne_space : ∀ d < 16, (hexChar d ≠ ' ') = True := by decide

theorem hexPairs_flatMap_byteHex :
    ∀ l : List Nat, (∀ b ∈ l, b < 256) →
      hexPairs (l.flatMap byteHex) = some l
  | [], _ => rfl
  | b :: rest, h => by
    have hb : b < 256 := h b (List.mem_cons_self b rest)
    have hdiv : b / 16 < 16 := by omega
    have hmod : b % 16 < 16 := Nat.mod_lt _ (by omega)
    simp only [List.flatMap_cons, byteHex, List.cons_append, List.nil_append]
    rw [hexPairs, hexVal_hexChar _ hdiv, hexVal_hexChar _ hmod,
      hexPairs_flatMap_byteHex rest (fun x hx => h x (List.mem_cons_of_mem b hx))]
    show some ((b / 16 * 16 + b % 16) :: rest) = some (b :: rest)
    have : b / 16 * 16 + b % 16 = b := by omega
    rw [this]

theorem bytesFromHex_hexStr {l : List Nat} (h : ∀ b ∈ l, b < 256) :
    bytesFromHex (hexStr l) = some l := by
  unfold bytesFromHex hexStr
  have hfilter : (l.flatMap byteHex).filter (fun c => decide (c ≠ ' ')) =
      l.flatMap byteHex := by
    rw [List.filter_eq_self]
    intro c hc
    rcases List.mem_flatMap.mp hc with ⟨b, hb, hcb⟩
    have hlt : b < 256 := h b hb
    have : c = hexChar (b / 16) ∨ c = hexChar (b % 16) := by
      simpa [byteHex] using hcb
    rcases this with rfl | rfl
    · have := hexChar_ne_space (b / 16) (by omega)
      simpa using of_eq_true this
    · have := hexChar_ne_space (b % 16) (Nat.mod_lt _ (by omega))
      simpa using of_eq_true this
  show hexPairs (List.filter _ _) = some l
  rw [hfilter]
  exact hexPairs_flatMap_byteHex l h

theorem bytesFromHex_sha1Hex (l : List Nat) :
    bytesFromHex (sha1Hex l) = some (sha1 l) :=
  bytesFromHex_hexStr (sha1_mem_lt l)

/-! ### The pack object header, as the specification words it -/

/-- The continuation bytes of the variable-length size header: 7 bits of the
remaining size per byte (little-endian groups), continuation bit 0x80 set
while more bits remain, cleared on the last byte.  This definition follows
the specification's wording and is proved equal to the code's loop. -/
def specSizeBytes (s : Nat) : List Nat :=
  if _h : s = 0 then []
  else if s < 128 then [s]
  else (128 + s % 128) :: specSizeBytes (s / 128)
decreasing_by exact Nat.div_lt_self (by omega) (by omega)

theorem or_128_eq_add : ∀ x < 128, 128 ||| x = 128 + x := by decide

theorem and_127_eq_mod (s : Nat) : s &&& 127 = s % 128 := by
  have h7 : s &&& 2 ^ 7 - 1 = s % 2 ^ 7 := Nat.and_pow_two_sub_one_eq_mod s 7
  norm_num at h7
  exact h7

theorem objHeaderAux_specSize : ∀ s : Nat, 0 < s →
    objHeaderAux (s &&& 0x7f) (s >>> 7) = specSizeBytes s := by
  intro s
  induction s using Nat.strong_induction_on with
  | _ s ih =>
    intro hs
    have hshift : s >>> 7 = s / 128 := by
      rw [Nat.shiftRight_eq_div_pow]
    have hs0 : ¬ (s = 0) := by omega
    rw [objHeaderAux, specSizeBytes, dif_neg hs0]
    by_cases h128 : s < 128
    · have hz : s >>> 7 = 0 := by
        rw [hshift]
        omega
      rw [dif_pos hz, if_pos h128, and_127_eq_mod, Nat.mod_eq_of_lt h128]
    · have hz : ¬ (s >>> 7 = 0) := by
        rw [hshift]
        omega
      have hdivpos : 0 < s >>> 7 := by omega
      have hdivlt : s >>> 7 < s := by
        rw [hshift]
        exact Nat.div_lt_self hs (by omega)
      rw [dif_neg hz, if_neg h128, and_127_eq_mod,
        or_128_eq_add (s % 128) (Nat.mod_lt _ (by omega)),
        ih (s >>> 7) hdivlt hdivpos, hshift]

theorem objHeader_layout (t s : Nat) :
    objHeader t s =
      (if 16 ≤ s then 0x80 ||| ((t <<< 4) ||| (s &&& 0xF))
       else (t <<< 4) ||| (s &&& 0xF)) :: specSizeBytes (s >>> 4) := by
  have hshift : s >>> 4 = s / 16 := by
    rw [Nat.shiftRight_eq_div_pow]
  unfold objHeader
  by_cases h16 : 16 ≤ s
  · have hpos : 0 < s >>> 4 := by
      rw [hshift]
      omega
    have hnz : ¬ (s >>> 4 = 0) := by omega
    rw [objHeaderAux, dif_neg hnz, if_pos h16]
    rw [objHeaderAux_specSize (s >>> 4) hpos]
  · have hz : s >>> 4 = 0 := by
      rw [hshift]
      omega
    rw [hz, objHeaderAux, dif_pos rfl, if_neg h16, specSizeBytes, dif_pos rfl]

/-! ### Claim theorems -/

/-- C5: for every input byte string (and band byte), the stream produced by
`format_side_band` is a sequence of packet-lines each framing one band-tagged
chunk, followed by a final flush packet `"0000"`; stripping the leading band
byte from every non-flush packet body and concatenating reconstructs the
input exactly. -/
theorem format_side_band_inverse (data : List Nat) (band : Nat) :
    ∃ chunks : List (List Nat),
      format_side_band data band =
        (chunks.map (fun c => utf8 (pyHex04 (c.length + 5)) ++ band :: c)).flatten
          ++ utf8 ("0000") ∧
      chunks.flatten = data ∧
      ∀ c ∈ chunks, c ≠ [] :=
  ⟨chunksOf 65519 data, rfl, chunksOf_flatten 65519 data,
    chunksOf_ne_nil 65519 data⟩

/-- C6 (amended): `format_side_band` splits its input into chunks of at most
65,519 bytes and each emitted non-flush packet-line occupies exactly
`chunk + 5` bytes, hence at most 65,524 bytes — not within the 65,520-byte
maximum the original claim states. -/
theorem format_side_band_chunk_bounds (data : List Nat) (band : Nat) :
    format_side_band data band =
      ((chunksOf 65519 data).map
        (fun c => utf8 (pyHex04 (c.length + 5)) ++ band :: c)).flatten
        ++ utf8 ("0000") ∧
    ∀ c ∈ chunksOf 65519 data,
      c.length ≤ 65519 ∧
      (utf8 (pyHex04 (c.length + 5)) ++ band :: c).length = c.length + 5 ∧
      c.length + 5 ≤ 65524 := by
  refine ⟨rfl, fun c hc => ?_⟩
  have hlen := chunksOf_length_le 65519 (by omega) data c hc
  refine ⟨hlen, ?_, by omega⟩
  simp only [List.length_append, List.length_cons]
  rw [utf8_pyHex04_length (by omega)]
  omega

theorem format_side_band_single_chunk (l : List Nat) (b : Nat) (h1 : l ≠ [])
    (h2 : l.length ≤ 65519) :
    format_side_band l b = (utf8 (pyHex04 (l.length + 5)) ++ b :: l) ++ utf8 ("0000") := by
  unfold format_side_band
  rw [chunksOf_eq_single 65519 l h1 h2]
  simp

/-- C6 (counterexample): on a 65,519-byte input the single non-flush
packet-line emitted by `format_side_band` occupies 65,524 bytes, exceeding
the claimed 65,520-byte maximum packet-line size. -/
theorem format_side_band_packet_too_large :
    format_side_band (List.replicate 65519 0) 1 =
      (utf8 (pyHex04 65524) ++ 1 :: List.replicate 65519 0) ++ utf8 ("0000") ∧
    (utf8 (pyHex04 65524) ++ 1 :: List.replicate 65519 0).length = 65524 ∧
    ¬ 65524 ≤ 65520 := by
  have hne : List.replicate 65519 (0 : Nat) ≠ [] := by
    rw [Ne, List.replicate_eq_nil_iff]
    omega
  refine ⟨?_, ?_, by omega⟩
  · rw [format_side_band_single_chunk _ 1 hne (le_of_eq (List.length_replicate ..)),
      List.length_replicate]
  · rw [List.length_append, List.length_cons, List.length_replicate,
      utf8_pyHex04_length (by omega)]

theorem parseLoop_succ_flush (data : List Nat) (n : Nat) (pos : Int)
    (wants : List String) (hlt : pos < (data.length : Int))
    (h : pyBytesHexInt (pySlice data pos (pos + 4)) = some 0) :
    parseLoop data (n + 1) pos wants = parseLoop data n (pos + 4) wants := by
  rw [parseLoop, if_pos hlt, h]
  rfl

theorem parseLoop_succ_skip (data : List Nat) (n : Nat) (pos L : Int)
    (wants : List String) (hlt : pos < (data.length : Int))
    (h : pyBytesHexInt (pySlice data pos (pos + 4)) = some L) (hL : ¬ L = 0)
    (hw : ¬ (pySlice data (pos + 4) (pos + L)).take 5 = utf8 ("want ")) :
    parseLoop data (n + 1) pos wants = parseLoop data n (pos + L) wants := by
  rw [parseLoop, if_pos hlt, h]
  simp only [if_neg hL, if_neg hw]

/-- The scan loop of `parse_request` cycles forever on `b"0000-004"`: the
flush advances `pos` from 0 to 4, then the packet length parses as `-4`,
which moves `pos` back to 0. -/
theorem parseLoop_0000_minus4_cycle :
    ∀ fuel, parseLoop (utf8 ("0000-004")) fuel 0 [] = none ∧
      parseLoop (utf8 ("0000-004")) fuel 4 [] = none := by
  have hd : utf8 ("0000-004") = [48, 48, 48, 48, 45, 48, 48, 52] := by decide
  have e0 : pyBytesHexInt (pySlice [48, 48, 48, 48, 45, 48, 48, 52] 0 (0 + 4)) =
      some 0 := by decide
  have e4 : pyBytesHexInt (pySlice [48, 48, 48, 48, 45, 48, 48, 52] 4 (4 + 4)) =
      some (-4) := by decide
  have hw : ¬ (pySlice [48, 48, 48, 48, 45, 48, 48, 52] (4 + 4) (4 + -4)).take 5 =
      utf8 ("want ") := by decide
  rw [hd]
  intro fuel
  induction fuel with
  | zero => exact ⟨rfl, rfl⟩
  | succ n ih =>
    refine ⟨?_, ?_⟩
    · rw [parseLoop_succ_flush _ n 0 [] (by decide) e0]
      exact ih.2
    · rw [parseLoop_succ_skip _ n 4 (-4) [] (by decide) e4 (by decide) hw]
      exact ih.1

/-- C7: `parse_request` does NOT return on every input byte string — on
`b"0000-004"` the Python loop runs forever (here: no fuel budget suffices),
because the flush packet advances the position to 4 and the following
packet's length field parses as the negative value −4, moving the position
back to 0. -/
theorem parse_request_diverges_on_negative_length :
    parse_request (utf8 ("0000-004")) = none ∧
      ∀ fuel, parseLoop (utf8 ("0000-004")) fuel 0 [] = none :=
  ⟨(parseLoop_0000_minus4_cycle _).1, fun fuel => (parseLoop_0000_minus4_cycle fuel).1⟩

/-- C8: the scratch directory allocated by `tempfile.mkdtemp` is NOT deleted
on every exit path: after a successful fetch only `tempDir/cdktf.out` is
removed and `tempDir` itself survives, and on the no-`MyStack` failure path
nothing is removed at all.  Only the exception branch of `synthesize`
removes it. -/
theorem scratch_dir_survives_flow :
    tempDir ∈ flowCleanup .ok [] ∧
    tempDir ∈ flowCleanup .noMyStack [] ∧
    (tempDir ++ "/cdktf.out") ∉ flowCleanup .ok [] ∧
    tempDir ∉ flowCleanup .execRaises [] := by decide

set_option maxRecDepth 20000 in
unseal hexDigits chunksOf objHeaderAux List.merge List.mergeSort in
/-- C9: when synthesis raises, returns no directory, or yields no files,
`get_refs` still returns the complete four-segment advertisement, and both
the HEAD line and the `refs/heads/main` line carry the all-zero 40-character
identity. -/
theorem get_refs_zero_identity :
    get_refs .raised =
      utf8 ("001e# service=git-upload-pack\n" ++ "0000" ++
        "00f0" ++ zeroId ++ " HEAD\x00" ++ capabilities ++ "\n" ++
        "003d" ++ zeroId ++ " refs/heads/main\n" ++ "0000") ∧
    get_refs .synthNone = get_refs .raised ∧
    get_refs (.files []) = get_refs .raised := by
  refine ⟨by decide, rfl, by decide⟩

/-! ### Stable sorting by a key: helper lemmas -/

theorem mergeSort_key_sorted {α β : Type} [LinearOrder β] (key : α → β) (l : List α) :
    List.Pairwise (fun a b => key a ≤ key b)
      (l.mergeSort (fun a b => decide (key a ≤ key b))) := by
  have h := @List.sorted_mergeSort α (fun a b => decide (key a ≤ key b))
    (fun a b c hab hbc => by
      simp only [decide_eq_true_eq] at *
      exact le_trans hab hbc)
    (fun a b => by
      simp only [Bool.or_eq_true, decide_eq_true_eq]
      exact le_total (key a) (key b)) l
  exact h.imp (fun hab => by simpa using hab)

theorem pairwise_lt_mergeSort {α β : Type} [LinearOrder β] (key : α → β) (l : List α)
    (hnd : (l.map key).Nodup) :
    List.Pairwise (fun a b => key a < key b)
      (l.mergeSort (fun a b => decide (key a ≤ key b))) := by
  have hle := mergeSort_key_sorted key l
  have hperm := List.mergeSort_perm l (fun a b => decide (key a ≤ key b))
  have hnd2 : ((l.mergeSort (fun a b => decide (key a ≤ key b))).map key).Nodup :=
    ((hperm.map key).nodup_iff).mpr hnd
  have hne : List.Pairwise (fun a b => key a ≠ key b)
      (l.mergeSort (fun a b => decide (key a ≤ key b))) :=
    List.pairwise_map.mp hnd2
  exact (hle.and hne).imp (fun hab => lt_of_le_of_ne hab.1 hab.2)

theorem mergeSort_eq_of_perm_of_nodup {α β : Type} [LinearOrder β] (key : α → β)
    (l l2 : List α) (hperm : l.Perm l2) (hnd : (l.map key).Nodup) :
    l.mergeSort (fun a b => decide (key a ≤ key b)) =
      l2.mergeSort (fun a b => decide (key a ≤ key b)) := by
  have hnd2 : (l2.map key).Nodup := ((hperm.map key).nodup_iff).mp hnd
  have hp : (l.mergeSort (fun a b => decide (key a ≤ key b))).Perm
      (l2.mergeSort (fun a b => decide (key a ≤ key b))) :=
    (List.mergeSort_perm l _).trans (hperm.trans (List.mergeSort_perm l2 _).symm)
  haveI : IsAntisymm α (fun a b => key a < key b) :=
    ⟨fun a b h1 h2 => absurd h1 (lt_asymm h2)⟩
  exact List.eq_of_perm_of_sorted hp (pairwise_lt_mergeSort key l hnd)
    (pairwise_lt_mergeSort key l2 hnd2)

/-- C3 (amended): for entry lists whose paths are pairwise distinct,
`create_tree` is invariant under permutation of its input, and a successful
result wraps the concatenated entry encodings of a reordering of the input
that lists paths in strictly ascending order. -/
theorem create_tree_perm_invariant (objs objs2 : List (String × String × List Nat))
    (hperm : objs.Perm objs2)
    (hnd : (objs.map (fun o => o.1)).Nodup) :
    create_tree objs = create_tree objs2 ∧
    ∀ th ts, create_tree objs = some (th, ts) →
      ∃ sorted entries,
        sorted.Perm objs ∧
        List.Pairwise (fun a b : String × String × List Nat => a.1 < b.1) sorted ∧
        sorted.mapM (fun o => treeEntryBytes o.1 o.2.1) = some entries ∧
        ts = utf8 ("tree ") ++ utf8 (toString entries.flatten.length) ++
          0 :: entries.flatten ∧
        th = sha1Hex (utf8 ("tree ") ++ utf8 (toString entries.flatten.length) ++
          0 :: entries.flatten) := by
  constructor
  · have heq := mergeSort_eq_of_perm_of_nodup
      (fun o : String × String × List Nat => o.1) objs objs2 hperm hnd
    simp only [create_tree]
    rw [heq]
  · intro th ts hts
    unfold create_tree at hts
    rcases Option.map_eq_some'.mp hts with ⟨entries, hmapM, hpair⟩
    have hth : sha1Hex (utf8 ("tree ") ++ utf8 (toString entries.flatten.length) ++
        0 :: entries.flatten) = th := congrArg Prod.fst hpair
    have hts2 : utf8 ("tree ") ++ utf8 (toString entries.flatten.length) ++
        0 :: entries.flatten = ts := congrArg Prod.snd hpair
    refine ⟨objs.mergeSort (fun a b => decide (a.1 ≤ b.1)), entries,
      List.mergeSort_perm objs _, ?_, hmapM, hts2.symm, hth.symm⟩
    exact pairwise_lt_mergeSort (fun o : String × String × List Nat => o.1) objs hnd

unseal String.ltb hexDigits chunksOf objHeaderAux List.merge List.mergeSort in
/-- C3 (counterexample): with a duplicated path, `create_tree` is NOT
permutation-invariant — the stable sort keeps equal paths in input order, so
swapping two entries that share a path changes the tree payload. -/
theorem create_tree_not_perm_invariant :
    ([(("a" : String), ("aaaaaaaaaaaaaaaaaaaaaaaaaaaaaaaaaaaaaaaa" : String), ([] : List Nat)),
      (("a" : String), ("bbbbbbbbbbbbbbbbbbbbbbbbbbbbbbbbbbbbbbbb" : String), ([] : List Nat))] :
        List (String × String × List Nat)).Perm
      [(("a" : String), ("bbbbbbbbbbbbbbbbbbbbbbbbbbbbbbbbbbbbbbbb" : String), ([] : List Nat)),
       (("a" : String), ("aaaaaaaaaaaaaaaaaaaaaaaaaaaaaaaaaaaaaaaa" : String), ([] : List Nat))] ∧
    create_tree
      [(("a" : String), ("aaaaaaaaaaaaaaaaaaaaaaaaaaaaaaaaaaaaaaaa" : String), ([] : List Nat)),
       (("a" : String), ("bbbbbbbbbbbbbbbbbbbbbbbbbbbbbbbbbbbbbbbb" : String), ([] : List Nat))] ≠
    create_tree
      [(("a" : String), ("bbbbbbbbbbbbbbbbbbbbbbbbbbbbbbbbbbbbbbbb" : String), ([] : List Nat)),
       (("a" : String), ("aaaaaaaaaaaaaaaaaaaaaaaaaaaaaaaaaaaaaaaa" : String), ([] : List Nat))] := by
  constructor
  · exact List.Perm.swap _ _ _
  · decide

theorem create_tree_perm_invariant_witness :
    ([(("a" : String), ("aaaaaaaaaaaaaaaaaaaaaaaaaaaaaaaaaaaaaaaa" : String), ([] : List Nat)),
      (("b" : String), ("bbbbbbbbbbbbbbbbbbbbbbbbbbbbbbbbbbbbbbbb" : String), ([] : List Nat))] :
        List (String × String × List Nat)).Perm
      [(("b" : String), ("bbbbbbbbbbbbbbbbbbbbbbbbbbbbbbbbbbbbbbbb" : String), ([] : List Nat)),
       (("a" : String), ("aaaaaaaaaaaaaaaaaaaaaaaaaaaaaaaaaaaaaaaa" : String), ([] : List Nat))] ∧
    create_tree
      [(("a" : String), ("aaaaaaaaaaaaaaaaaaaaaaaaaaaaaaaaaaaaaaaa" : String), ([] : List Nat)),
       (("b" : String), ("bbbbbbbbbbbbbbbbbbbbbbbbbbbbbbbbbbbbbbbb" : String), ([] : List Nat))] =
    create_tree
      [(("b" : String), ("bbbbbbbbbbbbbbbbbbbbbbbbbbbbbbbbbbbbbbbb" : String), ([] : List Nat)),
       (("a" : String), ("aaaaaaaaaaaaaaaaaaaaaaaaaaaaaaaaaaaaaaaa" : String), ([] : List Nat))] := by
  refine ⟨List.Perm.swap _ _ _, ?_⟩
  exact (create_tree_perm_invariant _ _ (List.Perm.swap _ _ _) (by decide)).1

/-! ### Object type tags of store encodings -/

theorem objType_commit_store (rest : List Nat) :
    objType (utf8 ("commit ") ++ rest) = 1 := by
  unfold objType
  rw [if_pos (List.take_left' (by decide))]

theorem objType_tree_store (rest : List Nat) :
    objType (utf8 ("tree ") ++ rest) = 2 := by
  unfold objType
  rw [if_neg ?hc, if_pos (List.take_left' (by decide))]
  case hc =>
    intro h
    have ht : utf8 ("tree ") = [116, 114, 101, 101, 32] := by decide
    have hc7 : utf8 ("commit ") = [99, 111, 109, 109, 105, 116, 32] := by decide
    rw [ht, hc7] at h
    simp at h

theorem objType_blob_store (rest : List Nat) :
    objType (utf8 ("blob ") ++ rest) = 3 := by
  unfold objType
  rw [if_neg ?hc, if_neg ?ht]
  case hc =>
    intro h
    have hb : utf8 ("blob ") = [98, 108, 111, 98, 32] := by decide
    have hc7 : utf8 ("commit ") = [99, 111, 109, 109, 105, 116, 32] := by decide
    rw [hb, hc7] at h
    simp at h
  case ht =>
    intro h
    rw [List.take_left' (by decide)] at h
    exact absurd h (by decide)

/-! ### The fetch flow succeeds: shared helper lemmas -/

theorem buildObjects_hash (files : List (String × String)) :
    ∀ o ∈ buildObjects files, ∃ lb, o.2.1 = sha1Hex lb := by
  intro o ho
  rcases List.mem_map.mp ho with ⟨f, _, rfl⟩
  exact ⟨_, rfl⟩

theorem mapM_treeEntry_some (l : List (String × String × List Nat))
    (h : ∀ o ∈ l, ∃ lb, o.2.1 = sha1Hex lb) :
    ∃ entries, l.mapM (fun o => treeEntryBytes o.1 o.2.1) = some entries := by
  induction l with
  | nil => exact ⟨[], rfl⟩
  | cons a rest ih =>
    obtain ⟨entries, hrest⟩ := ih (fun o ho => h o (List.mem_cons_of_mem a ho))
    obtain ⟨lb, hlb⟩ := h a (List.mem_cons_self a rest)
    have hfa : treeEntryBytes a.1 a.2.1 =
        some (utf8 ("100644 " ++ a.1) ++ 0 :: sha1 lb) := by
      unfold treeEntryBytes
      rw [hlb, bytesFromHex_sha1Hex]
      rfl
    refine ⟨(utf8 ("100644 " ++ a.1) ++ 0 :: sha1 lb) :: entries, ?_⟩
    rw [List.mapM_cons, hfa, hrest]
    rfl

theorem create_tree_buildObjects (files : List (String × String)) :
    ∃ th rest2, create_tree (buildObjects files) =
      some (th, utf8 ("tree ") ++ rest2) := by
  obtain ⟨entries, hmapM⟩ := mapM_treeEntry_some
    ((buildObjects files).mergeSort (fun a b => decide (a.1 ≤ b.1)))
    (fun o ho => buildObjects_hash files o (List.mem_mergeSort.mp ho))
  refine ⟨sha1Hex (utf8 ("tree ") ++ utf8 (toString entries.flatten.length) ++
      0 :: entries.flatten),
    utf8 (toString entries.flatten.length) ++ 0 :: entries.flatten, ?_⟩
  simp only [create_tree]
  rw [hmapM]
  rfl

unseal hexDigits in
theorem format_pack_response_eq (pack : List Nat) :
    format_pack_response pack = utf8 ("0008NAK\n") ++ format_side_band pack 1 := by
  unfold format_pack_response
  have h : utf8 (pyHex04 (4 + 4)) ++ utf8 ("NAK\n") = utf8 ("0008NAK\n") := by decide
  rw [← h, List.append_assoc]

theorem generate_pack_success (req : List Nat) (files : List (String × String))
    (compress : List Nat → List Nat) (ws : List String)
    (hp : parse_request req = some ws) (hw : ¬ ws = []) (hf : ¬ files = []) :
    ∃ th ts, create_tree (buildObjects files) = some (th, ts) ∧
      (∃ rest2, ts = utf8 ("tree ") ++ rest2) ∧
      generate_pack req (some files) compress =
        some (some (format_pack_response (create_packfile
          (((buildObjects files).map (fun o => (o.2.1, o.2.2)) ++
            [(th, ts), ((create_commit th).1, (create_commit th).2)]).mergeSort
            (fun a b => decide (a.1 ≤ b.1))) compress))) := by
  obtain ⟨th, rest2, hts⟩ := create_tree_buildObjects files
  have hobj : ¬ (buildObjects files = []) := by
    unfold buildObjects
    rw [List.map_eq_nil_iff]
    exact hf
  refine ⟨th, utf8 ("tree ") ++ rest2, hts, ⟨rest2, rfl⟩, ?_⟩
  unfold generate_pack
  rw [hp]
  simp only [if_neg hw, if_neg hobj, hts]

/-- C4: a successful fetch emits exactly the transitive object set of the
current synthesis — one blob per walked file, the tree over them, and the
commit, nothing else — and the pack entries are sorted ascending by
identity. -/
theorem generate_pack_exact_object_set (req : List Nat)
    (files : List (String × String)) (compress : List Nat → List Nat)
    (ws : List String) (hp : parse_request req = some ws) (hw : ¬ ws = [])
    (hf : ¬ files = []) :
    ∃ th ts pObjs,
      create_tree (buildObjects files) = some (th, ts) ∧
      generate_pack req (some files) compress =
        some (some (utf8 ("0008NAK\n") ++
          format_side_band (create_packfile pObjs compress) 1)) ∧
      pObjs.Perm ((buildObjects files).map (fun o => (o.2.1, o.2.2)) ++
        [(th, ts), ((create_commit th).1, (create_commit th).2)]) ∧
      List.Pairwise (fun a b : String × List Nat => a.1 ≤ b.1) pObjs := by
  obtain ⟨th, ts, hts, _, heq⟩ := generate_pack_success req files compress ws hp hw hf
  refine ⟨th, ts,
    (((buildObjects files).map (fun o => (o.2.1, o.2.2)) ++
      [(th, ts), ((create_commit th).1, (create_commit th).2)]).mergeSort
      (fun a b => decide (a.1 ≤ b.1))),
    hts, ?_, List.mergeSort_perm _ _, ?_⟩
  · rw [heq, format_pack_response_eq]
  · exact mergeSort_key_sorted (fun o : String × List Nat => o.1) _

theorem generate_pack_exact_object_set_witness :
    ∃ th ts pObjs,
      create_tree (buildObjects [(("hello.txt" : String), ("hi\n" : String))]) =
        some (th, ts) ∧
      generate_pack (utf8 ("0032want aaaaaaaaaaaaaaaaaaaaaaaaaaaaaaaaaaaaaaaa\n0000"))
          (some [(("hello.txt" : String), ("hi\n" : String))]) id =
        some (some (utf8 ("0008NAK\n") ++
          format_side_band (create_packfile pObjs id) 1)) ∧
      pObjs.Perm ((buildObjects [(("hello.txt" : String), ("hi\n" : String))]).map
          (fun o => (o.2.1, o.2.2)) ++
        [(th, ts), ((create_commit th).1, (create_commit th).2)]) ∧
      List.Pairwise (fun a b : String × List Nat => a.1 ≤ b.1) pObjs :=
  generate_pack_exact_object_set
    (utf8 ("0032want aaaaaaaaaaaaaaaaaaaaaaaaaaaaaaaaaaaaaaaa\n0000"))
    [(("hello.txt" : String), ("hi\n" : String))] id
    ["aaaaaaaaaaaaaaaaaaaaaaaaaaaaaaaaaaaaaaaa"]
    (by decide) (by decide) (by decide)

theorem create_packfile_take_12 (P : List (String × List Nat))
    (compress : List Nat → List Nat) :
    (create_packfile P compress).take 12 =
      utf8 ("PACK") ++ be32 2 ++ be32 P.length := by
  unfold create_packfile
  rw [List.append_assoc]
  exact List.take_left' (by simp [be32, List.length_append]; decide)

/-- C1: with a synthesis that walks exactly one file `hello.txt` containing
`"hi\n"` and any request whose parsed want-list is non-empty,
`generate_pack` succeeds; the response is the pkt-line `"NAK\n"` (bytes
`"0008NAK\n"`) followed by the side-band stream of a pack whose object-count
field is 3, the three objects being one blob, one tree and one commit. -/
theorem generate_pack_hello_scenario (req : List Nat)
    (compress : List Nat → List Nat) (ws : List String)
    (hp : parse_request req = some ws) (hw : ¬ ws = []) :
    ∃ pObjs : List (String × List Nat),
      generate_pack req (some [(("hello.txt" : String), ("hi\n" : String))]) compress =
        some (some (utf8 ("0008NAK\n") ++
          format_side_band (create_packfile pObjs compress) 1)) ∧
      pObjs.length = 3 ∧
      (create_packfile pObjs compress).take 12 =
        utf8 ("PACK") ++ be32 2 ++ be32 3 ∧
      (pObjs.map (fun o => objType o.2)).Perm [1, 2, 3] := by
  obtain ⟨th, ts, hts, ⟨rest2, hshape⟩, heq⟩ := generate_pack_success req
    [(("hello.txt" : String), ("hi\n" : String))] compress ws hp hw (by simp)
  refine ⟨(((buildObjects [(("hello.txt" : String), ("hi\n" : String))]).map
      (fun o => (o.2.1, o.2.2)) ++
      [(th, ts), ((create_commit th).1, (create_commit th).2)]).mergeSort
      (fun a b => decide (a.1 ≤ b.1))), ?_, ?_, ?_, ?_⟩
  · rw [heq, format_pack_response_eq]
  · rw [List.length_mergeSort]
    simp [buildObjects]
  · rw [create_packfile_take_12, List.length_mergeSort]
    simp [buildObjects]
  · 
    have hperm := (List.mergeSort_perm
      ((buildObjects [(("hello.txt" : String), ("hi\n" : String))]).map
          (fun o => (o.2.1, o.2.2)) ++
        [(th, ts), ((create_commit th).1, (create_commit th).2)])
      (fun a b => decide (a.1 ≤ b.1))).map (fun o : String × List Nat => objType o.2)
    have hmapeq : (((buildObjects [(("hello.txt" : String), ("hi\n" : String))]).map
          (fun o => (o.2.1, o.2.2)) ++
        [(th, ts), ((create_commit th).1, (create_commit th).2)]).map
          (fun o : String × List Nat => objType o.2)) = [3, 2, 1] := by
      have hblob : (create_blob ("hi\n")).2 = utf8 ("blob ") ++
          (utf8 (toString (utf8 ("hi\n")).length) ++ 0 :: utf8 ("hi\n")) := rfl
      have hcommit : (create_commit th).2 = utf8 ("commit ") ++
          (utf8 (toString (utf8 ("tree " ++ th ++ "\n" ++
            "author CDK2Git <cdk2git@example.com> 1701926400 +0000\n" ++
            "committer CDK2Git <cdk2git@example.com> 1701926400 +0000\n" ++
            "\n" ++
            "Initial commit - CDKTF synthesis output")).length) ++
            0 :: utf8 ("tree " ++ th ++ "\n" ++
            "author CDK2Git <cdk2git@example.com> 1701926400 +0000\n" ++
            "committer CDK2Git <cdk2git@example.com> 1701926400 +0000\n" ++
            "\n" ++
            "Initial commit - CDKTF synthesis output")) := rfl
      simp only [buildObjects, List.map_cons, List.map_nil, List.cons_append,
        List.nil_append]
      rw [hshape, hblob, hcommit, objType_blob_store, objType_tree_store,
        objType_commit_store]
    rw [hmapeq] at hperm
    exact hperm.trans (List.isPerm_iff.mp (by decide))

theorem generate_pack_hello_scenario_witness :
    ∃ pObjs : List (String × List Nat),
      generate_pack (utf8 ("0032want aaaaaaaaaaaaaaaaaaaaaaaaaaaaaaaaaaaaaaaa\n0000"))
          (some [(("hello.txt" : String), ("hi\n" : String))]) id =
        some (some (utf8 ("0008NAK\n") ++
          format_side_band (create_packfile pObjs id) 1)) ∧
      pObjs.length = 3 ∧
      (create_packfile pObjs id).take 12 = utf8 ("PACK") ++ be32 2 ++ be32 3 ∧
      (pObjs.map (fun o => objType o.2)).Perm [1, 2, 3] :=
  generate_pack_hello_scenario
    (utf8 ("0032want aaaaaaaaaaaaaaaaaaaaaaaaaaaaaaaaaaaaaaaa\n0000")) id
    ["aaaaaaaaaaaaaaaaaaaaaaaaaaaaaaaaaaaaaaaa"] (by decide) (by decide)

/-- C10: the want-list never selects objects — any two requests whose parsed
want-lists are both non-empty yield byte-identical responses for the same
synthesis output. -/
theorem generate_pack_ignores_wants (r1 r2 : List Nat)
    (synth : Option (List (String × String))) (compress : List Nat → List Nat)
    (w1 w2 : List String) (h1 : parse_request r1 = some w1) (hn1 : ¬ w1 = [])
    (h2 : parse_request r2 = some w2) (hn2 : ¬ w2 = []) :
    generate_pack r1 synth compress = generate_pack r2 synth compress := by
  unfold generate_pack
  rw [h1, h2]
  simp only [if_neg hn1, if_neg hn2]

theorem generate_pack_ignores_wants_witness :
    generate_pack (utf8 ("0032want aaaaaaaaaaaaaaaaaaaaaaaaaaaaaaaaaaaaaaaa\n0000"))
        (some [(("hello.txt" : String), ("hi\n" : String))]) id =
      generate_pack (utf8 ("0032want bbbbbbbbbbbbbbbbbbbbbbbbbbbbbbbbbbbbbbbb\n0000"))
        (some [(("hello.txt" : String), ("hi\n" : String))]) id :=
  generate_pack_ignores_wants
    (utf8 ("0032want aaaaaaaaaaaaaaaaaaaaaaaaaaaaaaaaaaaaaaaa\n0000"))
    (utf8 ("0032want bbbbbbbbbbbbbbbbbbbbbbbbbbbbbbbbbbbbbbbb\n0000"))
    (some [(("hello.txt" : String), ("hi\n" : String))]) id
    ["aaaaaaaaaaaaaaaaaaaaaaaaaaaaaaaaaaaaaaaa"]
    ["bbbbbbbbbbbbbbbbbbbbbbbbbbbbbbbbbbbbbbbb"]
    (by decide) (by decide) (by decide) (by decide)

/-! ### Pack trailer integrity helpers -/

theorem trailer_eq (P : List Nat) :
    (P ++ sha1 P).drop ((P ++ sha1 P).length - 20) =
      sha1 ((P ++ sha1 P).take ((P ++ sha1 P).length - 20)) := by
  have hlen : (P ++ sha1 P).length - 20 = P.length := by
    rw [List.length_append, sha1_length]
    omega
  rw [hlen, List.drop_left, List.take_left]

theorem flip_breaks_trailer (P : List Nat) (i b : Nat)
    (hi : i < (P ++ sha1 P).length - 20)
    (hne : sha1 (((P ++ sha1 P).set i b).take (((P ++ sha1 P).set i b).length - 20)) ≠
      sha1 ((P ++ sha1 P).take ((P ++ sha1 P).length - 20))) :
    ¬ ((P ++ sha1 P).set i b).drop (((P ++ sha1 P).set i b).length - 20) =
      sha1 (((P ++ sha1 P).set i b).take (((P ++ sha1 P).set i b).length - 20)) := by
  intro heq
  have hlen : (P ++ sha1 P).length - 20 = P.length := by
    rw [List.length_append, sha1_length]
    omega
  have hlen2 : ((P ++ sha1 P).set i b).length - 20 = P.length := by
    rw [List.length_set]
    exact hlen
  have hiP : i < P.length := by omega
  have hset : (P ++ sha1 P).set i b = P.set i b ++ sha1 P :=
    List.set_append_left i b hiP
  have hdrop : ((P ++ sha1 P).set i b).drop (((P ++ sha1 P).set i b).length - 20) =
      sha1 P := by
    rw [hlen2, hset, List.drop_left' (List.length_set ..)]
  rw [hdrop] at heq
  apply hne
  rw [hlen, List.take_left]
  exact heq.symm

/-- C2: the pack layout — 4-byte magic "PACK", big-endian 32-bit version 2,
big-endian 32-bit object count, then per object the variable-length
type/size header (first byte `(type <<< 4) ||| (size &&& 0xF)` with bit 7
set iff more size bits remain, then bytes of 7 remaining-size bits each
with bit 7 set while more remain) followed by the compressed payload; the
final 20 bytes equal the SHA-1 of every preceding byte, and changing an
earlier byte invalidates that equality whenever the digests of the two
prefixes differ (SHA-1 collision freedom is assumed, not proved). -/
theorem create_packfile_layout (objects : List (String × List Nat))
    (compress : List Nat → List Nat) (hcount : objects.length < 4294967296) :
    ∃ body : List Nat,
      create_packfile objects compress =
        (utf8 ("PACK") ++ be32 2 ++ be32 objects.length ++ body) ++
          sha1 (utf8 ("PACK") ++ be32 2 ++ be32 objects.length ++ body) ∧
      body = (objects.map (fun obj =>
        objHeader (objType obj.2) (afterNull obj.2).length ++
          compress (afterNull obj.2))).flatten ∧
      (∀ t s2, objHeader t s2 =
        (if 16 ≤ s2 then 0x80 ||| ((t <<< 4) ||| (s2 &&& 0xF))
         else (t <<< 4) ||| (s2 &&& 0xF)) :: specSizeBytes (s2 >>> 4)) ∧
      ((create_packfile objects compress).drop
          ((create_packfile objects compress).length - 20) =
        sha1 ((create_packfile objects compress).take
          ((create_packfile objects compress).length - 20))) ∧
      (∀ i b : Nat, i < (create_packfile objects compress).length - 20 →
        sha1 (((create_packfile objects compress).set i b).take
            (((create_packfile objects compress).set i b).length - 20)) ≠
          sha1 ((create_packfile objects compress).take
            ((create_packfile objects compress).length - 20)) →
        ¬ ((create_packfile objects compress).set i b).drop
            (((create_packfile objects compress).set i b).length - 20) =
          sha1 (((create_packfile objects compress).set i b).take
            (((create_packfile objects compress).set i b).length - 20))) := by
  have h1 : create_packfile objects compress =
      (utf8 ("PACK") ++ be32 2 ++ be32 objects.length ++
        (objects.map (packEntryBytes compress)).flatten) ++
        sha1 (utf8 ("PACK") ++ be32 2 ++ be32 objects.length ++
          (objects.map (packEntryBytes compress)).flatten) := rfl
  refine ⟨(objects.map (packEntryBytes compress)).flatten, h1, rfl, objHeader_layout,
    ?_, ?_⟩
  · rw [h1]
    exact trailer_eq _
  · intro i b hi hne
    rw [h1] at hi hne ⊢
    exact flip_breaks_trailer _ i b hi hne

theorem create_packfile_layout_witness :
    ∃ body : List Nat,
      create_packfile [(("x" : String), [104, 105])] id =
        (utf8 ("PACK") ++ be32 2 ++ be32 ([(("x" : String), [104, 105])] :
            List (String × List Nat)).length ++ body) ++
          sha1 (utf8 ("PACK") ++ be32 2 ++
            be32 ([(("x" : String), [104, 105])] : List (String × List Nat)).length ++ body) ∧
      body = (([(("x" : String), [104, 105])] : List (String × List Nat)).map (fun obj =>
        objHeader (objType obj.2) (afterNull obj.2).length ++
          id (afterNull obj.2))).flatten ∧
      (∀ t s2, objHeader t s2 =
        (if 16 ≤ s2 then 0x80 ||| ((t <<< 4) ||| (s2 &&& 0xF))
         else (t <<< 4) ||| (s2 &&& 0xF)) :: specSizeBytes (s2 >>> 4)) ∧
      ((create_packfile [(("x" : String), [104, 105])] id).drop
          ((create_packfile [(("x" : String), [104, 105])] id).length - 20) =
        sha1 ((create_packfile [(("x" : String), [104, 105])] id).take
          ((create_packfile [(("x" : String), [104, 105])] id).length - 20))) ∧
      (∀ i b : Nat, i < (create_packfile [(("x" : String), [104, 105])] id).length - 20 →
        sha1 (((create_packfile [(("x" : String), [104, 105])] id).set i b).take
            (((create_packfile [(("x" : String), [104, 105])] id).set i b).length - 20)) ≠
          sha1 ((create_packfile [(("x" : String), [104, 105])] id).take
            ((create_packfile [(("x" : String), [104, 105])] id).length - 20)) →
        ¬ ((create_packfile [(("x" : String), [104, 105])] id).set i b).drop
            (((create_packfile [(("x" : String), [104, 105])] id).set i b).length - 20) =
          sha1 (((create_packfile [(("x" : String), [104, 105])] id).set i b).take
            (((create_packfile [(("x" : String), [104, 105])] id).set i b).length - 20))) :=
  create_packfile_layout [(("x" : String), [104, 105])] id (by decide)

